import Mathlib

/-!
Verification development for the Formbricks data-generation and seeding
pipeline (`src/generator.py`, `src/seeder.py`, `src/schemas.py`).

The Python source is shallowly embedded: pure helpers become Lean
functions, the pseudo-random primitives (`random.randint`,
`random.sample`, `random.choice`) are modelled over an explicit stream of
naturals, network calls are modelled by oracle parameters describing the
remote server's replies, and fallible steps return `Option`/`Except`.
-/

namespace Formbricks

open scoped List

/-- Brace characters, named to keep them out of string/char literals. -/
def lcur : Char := Char.ofNat 123

/-- Closing brace character. -/
def rcur : Char := Char.ofNat 125

/-- Opening square bracket. -/
def lsq : Char := '['

/-- Closing square bracket. -/
def rsq : Char := ']'

/-- Single-quote character (used by Python `repr` of strings). -/
def squote : String := String.singleton (Char.ofNat 39)

/-- A JSON value, as produced by the standard JSON parse (`json.loads`)
applied to the extracted model output and to API response bodies.
Numeric literals are modelled as integers, which covers every payload
this development evaluates. -/
inductive Json where
  | null : Json
  | bool (b : Bool) : Json
  | num (n : Int) : Json
  | str (s : String) : Json
  | arr (elems : List Json) : Json
  | obj (fields : List (String × Json)) : Json

/-- Field lookup on a JSON object (Python `dict` access / `.get`):
`none` when the value is not an object or lacks the key. -/
def Json.getField : Json → String → Option Json
  | .obj fields, k => go fields k
  | _, _ => none
where
  go : List (String × Json) → String → Option Json
  | [], _ => none
  | (k', v) :: rest, k => if k' = k then some v else go rest k

/-- Python truthiness of a (JSON-shaped) value: `None`, `False`, `0`,
`""`, `[]` and an empty dict are falsy, everything else is truthy. -/
def Json.truthy : Json → Bool
  | .null => false
  | .bool b => b
  | .num n => n != 0
  | .str s => s != ""
  | .arr l => !l.isEmpty
  | .obj l => !l.isEmpty

section Parser

/-- Skip JSON whitespace. -/
def skipWs (cs : List Char) : List Char :=
  cs.dropWhile fun c => c = ' ' ∨ c = '\n' ∨ c = '\t' ∨ c = '\r'

/-- Parse the body of a JSON string literal after the opening quote,
handling the standard single-character escapes. -/
def parseStringBody (fuel : Nat) (cs : List Char) : Option (String × List Char) :=
  match fuel, cs with
  | 0, _ => none
  | _, [] => none
  | f + 1, c :: rest =>
    if c = '"' then some ("", rest)
    else if c = '\\' then
      match rest with
      | [] => none
      | e :: rest' =>
        let esc : Option Char :=
          if e = '"' then some '"'
          else if e = '\\' then some '\\'
          else if e = '/' then some '/'
          else if e = 'n' then some '\n'
          else if e = 't' then some '\t'
          else if e = 'r' then some '\r'
          else if e = 'b' then some (Char.ofNat 8)
          else if e = 'f' then some (Char.ofNat 12)
          else none
        match esc with
        | none => none
        | some ch =>
          match parseStringBody f rest' with
          | none => none
          | some (s, remaining) => some (String.singleton ch ++ s, remaining)
    else
      match parseStringBody f rest with
      | none => none
      | some (s, remaining) => some (String.singleton c ++ s, remaining)

/-- Parse a run of decimal digits into a natural number. -/
def parseDigits (cs : List Char) : Option (Nat × List Char) :=
  let digits := cs.takeWhile Char.isDigit
  let rest := cs.dropWhile Char.isDigit
  if digits.isEmpty then none
  else some (digits.foldl (fun acc c => acc * 10 + (c.toNat - 48)) 0, rest)

mutual

/-- Parse one JSON value (fuel-bounded recursive-descent parser
modelling the standard JSON grammar on the payloads evaluated here). -/
def parseValue : Nat → List Char → Option (Json × List Char)
  | 0, _ => none
  | f + 1, cs =>
    match skipWs cs with
    | [] => none
    | c :: rest =>
      if c = lcur then
        parseMembers f (skipWs rest) true
      else if c = lsq then
        parseItems f (skipWs rest) true
      else if c = '"' then
        match parseStringBody (f + 1) rest with
        | none => none
        | some (s, remaining) => some (.str s, remaining)
      else if c = '-' then
        match parseDigits rest with
        | none => none
        | some (n, remaining) => some (.num (-(n : Int)), remaining)
      else if c.isDigit then
        match parseDigits (c :: rest) with
        | none => none
        | some (n, remaining) => some (.num (n : Int), remaining)
      else if c = 't' then
        match rest with
        | 'r' :: 'u' :: 'e' :: remaining => some (.bool true, remaining)
        | _ => none
      else if c = 'f' then
        match rest with
        | 'a' :: 'l' :: 's' :: 'e' :: remaining => some (.bool false, remaining)
        | _ => none
      else if c = 'n' then
        match rest with
        | 'u' :: 'l' :: 'l' :: remaining => some (.null, remaining)
        | _ => none
      else none

/-- Parse the items of a JSON array after the opening bracket;
`first` is true when no item has been consumed yet. -/
def parseItems : Nat → List Char → Bool → Option (Json × List Char)
  | 0, _, _ => none
  | f + 1, cs, first =>
    match skipWs cs with
    | [] => none
    | c :: rest =>
      if c = rsq ∧ first then some (.arr [], rest)
      else
        match parseValue f (c :: rest) with
        | none => none
        | some (v, remaining) =>
          match skipWs remaining with
          | [] => none
          | c' :: rest' =>
            if c' = rsq then some (.arr [v], rest')
            else if c' = ',' then
              match parseItems f rest' false with
              | some (.arr vs, rem) => some (.arr (v :: vs), rem)
              | _ => none
            else none

/-- Parse the members of a JSON object after the opening brace;
`first` is true when no member has been consumed yet. -/
def parseMembers : Nat → List Char → Bool → Option (Json × List Char)
  | 0, _, _ => none
  | f + 1, cs, first =>
    match skipWs cs with
    | [] => none
    | c :: rest =>
      if c = rcur ∧ first then some (.obj [], rest)
      else if c = '"' then
        match parseStringBody (f + 1) rest with
        | none => none
        | some (k, afterKey) =>
          match skipWs afterKey with
          | ':' :: afterColon =>
            match parseValue f afterColon with
            | none => none
            | some (v, remaining) =>
              match skipWs remaining with
              | [] => none
              | c' :: rest' =>
                if c' = rcur then some (.obj [(k, v)], rest')
                else if c' = ',' then
                  match parseMembers f rest' false with
                  | some (.obj ms, rem) => some (.obj ((k, v) :: ms), rem)
                  | _ => none
                else none
          | _ => none
      else none

end

/-- `json.loads`: parse a complete JSON document, rejecting trailing
garbage. -/
def Json.loads (s : String) : Option Json :=
  match parseValue (2 * s.length + 2) s.data with
  | none => none
  | some (v, rest) => if (skipWs rest).isEmpty then some v else none

end Parser

section Schemas

/-- `UserRole` (schemas.py): role of a user. -/
inductive UserRole where
  | owner : UserRole
  | manager : UserRole
  | member : UserRole
deriving DecidableEq

/-- The string value of a role (the models store enum values). -/
def UserRole.val : UserRole → String
  | .owner => "owner"
  | .manager => "manager"
  | .member => "member"

/-- `QuestionType` (schemas.py): supported Formbricks question types. -/
inductive QuestionType where
  | multipleChoiceSingle : QuestionType
  | multipleChoiceMulti : QuestionType
  | openText : QuestionType
  | rating : QuestionType
  | nps : QuestionType
  | cta : QuestionType
  | consent : QuestionType
deriving DecidableEq

/-- The string value of a question type. -/
def QuestionType.val : QuestionType → String
  | .multipleChoiceSingle => "multipleChoiceSingle"
  | .multipleChoiceMulti => "multipleChoiceMulti"
  | .openText => "openText"
  | .rating => "rating"
  | .nps => "nps"
  | .cta => "cta"
  | .consent => "consent"

/-- `User` (schemas.py). -/
structure User where
  name : String
  email : String
  role : UserRole
deriving DecidableEq

/-- `UserList` (schemas.py). -/
structure UserList where
  users : List User
deriving DecidableEq

/-- `QuestionChoice` (schemas.py). -/
structure QuestionChoice where
  id : String
  label : String
deriving DecidableEq

/-- `Question` (schemas.py). -/
structure Question where
  id : String
  type : QuestionType
  headline : String
  subheader : Option String := none
  required : Bool := true
  choices : Option (List QuestionChoice) := none
  scale : Option String := none
  range : Option Int := none
  lowerLabel : Option String := none
  upperLabel : Option String := none
deriving DecidableEq

/-- `Survey` (schemas.py). The optional cards are opaque structured
blobs (`Dict[str, Any]`), kept as JSON objects. -/
structure Survey where
  id : String
  name : String
  questions : List Question
  status : String := "draft"
  type : String := "link"
  welcomeCard : Option Json := none
  thankYouCard : Option Json := none

/-- `SurveyList` (schemas.py). -/
structure SurveyList where
  surveys : List Survey

/-- The polymorphic `Answer.value` (schemas.py:
`Union[str, int, List[str]]`). -/
inductive AnswerValue where
  | s (v : String) : AnswerValue
  | i (v : Int) : AnswerValue
  | l (v : List String) : AnswerValue
deriving DecidableEq

/-- `Answer` (schemas.py). -/
structure Answer where
  question_id : String
  value : AnswerValue
deriving DecidableEq

/-- `Response` (schemas.py). -/
structure Response where
  survey_id : String
  user_email : String
  answers : List Answer
  finished : Bool := true
deriving DecidableEq

/-- `ResponseList` (schemas.py). -/
structure ResponseList where
  responses : List Response
deriving DecidableEq

/-- Modelled from the spec: the syntactic email validation performed by
the schema layer (pydantic `EmailStr`, library code outside this
repository). An address is one at-sign separating a nonempty local part
from a nonempty domain that contains an interior dot and no further
at-sign; no whitespace anywhere. -/
def validEmail (s : String) : Bool :=
  let cs := s.data
  let lpart := cs.takeWhile (fun c => c ≠ '@')
  match cs.dropWhile (fun c => c ≠ '@') with
  | [] => false
  | _ :: domain =>
    !lpart.isEmpty && !domain.isEmpty && !(domain.contains '@') &&
      domain.contains '.' && domain.head? != some '.' &&
      domain.getLast? != some '.' && !(cs.contains ' ')

end Schemas

section Decoders

/-- Decode each element of a JSON array (pydantic validates every item
of a `List[...]` field; any item failure fails the model). -/
def decodeList {α : Type} (dec : Json → Option α) : List Json → Option (List α)
  | [] => some []
  | j :: rest => (dec j).bind fun a => (decodeList dec rest).map (a :: ·)

/-- A required string field. -/
def Json.getStr (j : Json) (k : String) : Option String :=
  match j.getField k with
  | some (.str s) => some s
  | _ => none

/-- An optional field of a pydantic model: absent or JSON-null decodes
to `none`; a present value must decode. -/
def decodeOptField {α : Type} (j : Json) (k : String) (dec : Json → Option α) :
    Option (Option α) :=
  match j.getField k with
  | none => some none
  | some .null => some none
  | some v => (dec v).map some

/-- Decode a `UserRole` from its enum value string. -/
def UserRole.decode : Json → Option UserRole
  | .str "owner" => some .owner
  | .str "manager" => some .manager
  | .str "member" => some .member
  | _ => none

/-- Decode a `User` (pydantic: required `name`, required valid `email`,
`role` defaulting to `member`; extra keys are ignored). -/
def User.decode (j : Json) : Option User :=
  (j.getStr "name").bind fun name =>
  (j.getStr "email").bind fun email =>
  if validEmail email then
    (match j.getField "role" with
     | none => some UserRole.member
     | some v => UserRole.decode v).bind fun role =>
    some { name := name, email := email, role := role }
  else none

/-- Decode a `UserList` from the parsed payload. -/
def UserList.decode (j : Json) : Option UserList :=
  match j.getField "users" with
  | some (.arr items) => (decodeList User.decode items).map ({ users := · })
  | _ => none

/-- Decode a `QuestionType` from its enum value string. -/
def QuestionType.decode : Json → Option QuestionType
  | .str "multipleChoiceSingle" => some .multipleChoiceSingle
  | .str "multipleChoiceMulti" => some .multipleChoiceMulti
  | .str "openText" => some .openText
  | .str "rating" => some .rating
  | .str "nps" => some .nps
  | .str "cta" => some .cta
  | .str "consent" => some .consent
  | _ => none

/-- Decode a `QuestionChoice`. -/
def QuestionChoice.decode (j : Json) : Option QuestionChoice :=
  (j.getStr "id").bind fun id =>
  (j.getStr "label").bind fun label =>
  some { id := id, label := label }

/-- Decode a string-valued JSON leaf. -/
def decodeStr : Json → Option String
  | .str s => some s
  | _ => none

/-- Decode an integer-valued JSON leaf. -/
def decodeInt : Json → Option Int
  | .num n => some n
  | _ => none

/-- Decode a boolean-valued JSON leaf. -/
def decodeBool : Json → Option Bool
  | .bool b => some b
  | _ => none

/-- Decode the `choices` field value: a JSON array of valid choices. -/
def decodeChoicesField : Json → Option (List QuestionChoice)
  | .arr items => decodeList QuestionChoice.decode items
  | _ => none

/-- Decode a `Question` (required `id`/`type`/`headline`, `required`
defaulting to true, the remaining typed fields optional). -/
def Question.decode (j : Json) : Option Question :=
  (j.getStr "id").bind fun id =>
  ((j.getField "type").bind QuestionType.decode).bind fun type =>
  (j.getStr "headline").bind fun headline =>
  (decodeOptField j "subheader" decodeStr).bind fun subheader =>
  (match j.getField "required" with
   | none => some true
   | some v => decodeBool v).bind fun required =>
  (decodeOptField j "choices" decodeChoicesField).bind fun choices =>
  (decodeOptField j "scale" decodeStr).bind fun scale =>
  (decodeOptField j "range" decodeInt).bind fun range =>
  (decodeOptField j "lowerLabel" decodeStr).bind fun lowerLabel =>
  (decodeOptField j "upperLabel" decodeStr).bind fun upperLabel =>
  some { id := id, type := type, headline := headline, subheader := subheader,
         required := required, choices := choices, scale := scale, range := range,
         lowerLabel := lowerLabel, upperLabel := upperLabel }

/-- Decode a `Survey` (required `id`/`name`/`questions`, defaulted
`status`/`type`, optional opaque cards that must be objects). -/
def decodeCardField : Json → Option Json
  | .obj fields => some (Json.obj fields)
  | _ => none

def decodeQuestionsField : Json → Option (List Question)
  | .arr items => decodeList Question.decode items
  | _ => none

def Survey.decode (j : Json) : Option Survey :=
  (j.getStr "id").bind fun id =>
  (j.getStr "name").bind fun name =>
  ((j.getField "questions").bind decodeQuestionsField).bind fun questions =>
  (match j.getField "status" with
   | none => some "draft"
   | some v => decodeStr v).bind fun status =>
  (match j.getField "type" with
   | none => some "link"
   | some v => decodeStr v).bind fun type =>
  (decodeOptField j "welcomeCard" decodeCardField).bind fun welcomeCard =>
  (decodeOptField j "thankYouCard" decodeCardField).bind fun thankYouCard =>
  some { id := id, name := name, questions := questions, status := status,
         type := type, welcomeCard := welcomeCard, thankYouCard := thankYouCard }

/-- Decode a `SurveyList` from the parsed payload. -/
def SurveyList.decode (j : Json) : Option SurveyList :=
  match j.getField "surveys" with
  | some (.arr items) => (decodeList Survey.decode items).map ({ surveys := · })
  | _ => none

/-- Decode the polymorphic answer value (`Union[str, int, List[str]]`). -/
def AnswerValue.decode : Json → Option AnswerValue
  | .str x => some (AnswerValue.s x)
  | .num n => some (AnswerValue.i n)
  | .arr items => (decodeList decodeStr items).map AnswerValue.l
  | _ => none

/-- Decode an `Answer`. -/
def Answer.decode (j : Json) : Option Answer :=
  (j.getStr "question_id").bind fun qid =>
  ((j.getField "value").bind AnswerValue.decode).bind fun value =>
  some { question_id := qid, value := value }

/-- Decode a `Response` (`finished` defaults to true). -/
def decodeAnswersField : Json → Option (List Answer)
  | .arr items => decodeList Answer.decode items
  | _ => none

def Response.decode (j : Json) : Option Response :=
  (j.getStr "survey_id").bind fun sid =>
  (j.getStr "user_email").bind fun email =>
  ((j.getField "answers").bind decodeAnswersField).bind fun answers =>
  (match j.getField "finished" with
   | none => some true
   | some v => decodeBool v).bind fun finished =>
  some { survey_id := sid, user_email := email, answers := answers,
         finished := finished }

/-- Decode a `ResponseList` from the parsed payload. -/
def ResponseList.decode (j : Json) : Option ResponseList :=
  match j.getField "responses" with
  | some (.arr items) => (decodeList Response.decode items).map ({ responses := · })
  | _ => none

end Decoders

section Extraction

/-- Index of the first occurrence of `c` (Python `str.find`, with
`Option` in place of the `-1` sentinel). -/
def firstIdx (c : Char) : List Char → Option Nat
  | [] => none
  | a :: rest =>
    if a = c then some 0
    else (firstIdx c rest).map (· + 1)

/-- Index of the last occurrence of `c` (Python `str.rfind`). -/
def lastIdx (c : Char) : List Char → Option Nat
  | [] => none
  | a :: rest =>
    match lastIdx c rest with
    | some j => some (j + 1)
    | none => if a = c then some 0 else none

/-- `DataGenerator._extract_json` (generator.py): find the first
object-opening brace (falling back to the first array-opening bracket),
the last closing brace (falling back to the last closing bracket), and
return the inclusive slice; otherwise return the input unchanged. -/
def extract_json (text : String) : String :=
  let cs := text.data
  let start :=
    match firstIdx lcur cs with
    | some i => some i
    | none => firstIdx lsq cs
  match start with
  | some s =>
    let stop :=
      match lastIdx rcur cs with
      | some j => some j
      | none => lastIdx rsq cs
    match stop with
    | some j => String.mk ((cs.drop s).take (j + 1 - s))
    | none => text
  | none => text

/-- The extraction algorithm as the claim states it: the slice runs from
the first occurrence of either opening delimiter to the last occurrence
of the closing delimiter corresponding to that opening delimiter's type
(input returned unchanged when no opener, or no such closer, occurs). -/
def extract_json_claimed (text : String) : String :=
  let cs := text.data
  match firstIdx lcur cs, firstIdx lsq cs with
  | none, none => text
  | some i, none => sliceTo cs i (lastIdx rcur cs) text
  | none, some i => sliceTo cs i (lastIdx rsq cs) text
  | some i, some i' =>
    if i ≤ i' then sliceTo cs i (lastIdx rcur cs) text
    else sliceTo cs i' (lastIdx rsq cs) text
where
  sliceTo (cs : List Char) (s : Nat) (stop : Option Nat) (orig : String) : String :=
    match stop with
    | some j => String.mk ((cs.drop s).take (j + 1 - s))
    | none => orig

end Extraction

section Random

/-- The pseudo-random source, modelled as an infinite stream of
naturals together with a cursor. Each primitive draw consumes one
stream element. -/
structure Rng where
  stream : Nat → Nat
  pos : Nat

/-- Draw one natural from the source. -/
def Rng.next (g : Rng) : Nat × Rng :=
  (g.stream g.pos, { g with pos := g.pos + 1 })

/-- `random.randint(a, b)`: a uniform integer in `[a, b]` inclusive;
raises (`none`) when `a > b`. -/
def randint (a b : Int) (g : Rng) : Option (Int × Rng) :=
  if a ≤ b then
    let (n, g') := g.next
    some (a + (n : Int) % (b - a + 1), g')
  else none

/-- `random.choice(seq)`: one element of a nonempty sequence; raises
(`none`) on an empty one. -/
def choice {α : Type} (l : List α) (g : Rng) : Option (α × Rng) :=
  match l with
  | [] => none
  | a :: rest =>
    let (n, g') := g.next
    some ((a :: rest).get ⟨n % (a :: rest).length, Nat.mod_lt _ (Nat.succ_pos rest.length)⟩, g')

/-- Selection core of `random.sample`: `k` draws without replacement,
each removing the drawn position from the population. Precondition
`k ≤ pop.length` is enforced by the wrapper. -/
def sampleAux {α : Type} : Nat → List α → Rng → List α × Rng
  | 0, _, g => ([], g)
  | _ + 1, [], g => ([], g)
  | k + 1, a :: rest, g =>
    ((a :: rest).get ⟨g.next.1 % (a :: rest).length, Nat.mod_lt _ (by simp)⟩ ::
       (sampleAux k ((a :: rest).eraseIdx (g.next.1 % (a :: rest).length)) g.next.2).1,
     (sampleAux k ((a :: rest).eraseIdx (g.next.1 % (a :: rest).length)) g.next.2).2)

/-- `random.sample(population, k)`: `k` elements chosen from distinct
positions without replacement; raises (`none`) when `k` is negative or
exceeds the population size. -/
def sample {α : Type} (pop : List α) (k : Int) (g : Rng) : Option (List α × Rng) :=
  if 0 ≤ k ∧ k.toNat ≤ pop.length then some (sampleAux k.toNat pop g) else none

end Random

section Generator

/-- Python `x or d` on an optional integer: `None` and `0` are falsy. -/
def pyOrInt (v : Option Int) (d : Int) : Int :=
  match v with
  | none => d
  | some x => if x = 0 then d else x

/-- The choice list of a question, with Python truthiness: `None` and
the empty list both count as "no choices". -/
def pyChoices (q : Question) : List QuestionChoice :=
  match q.choices with
  | none => []
  | some cs => cs

/-- The fixed pool of generic open-text answers
(`DataGenerator._generate_text_response`). -/
def textResponses : List String :=
  [ "The product works well overall, but could use some improvements in the UI.",
    "Very satisfied with the service. Support team is responsive and helpful.",
    "It meets our needs, though the learning curve was steep initially.",
    "Great tool! Has saved us a lot of time in our workflow.",
    "Works as expected. Would appreciate more integration options.",
    "Solid product. The recent updates have been particularly useful.",
    "Good value for money. Some features could be more intuitive.",
    "Excellent experience so far. Looking forward to upcoming features.",
    "It" ++ squote ++ "s okay. Does the job but nothing exceptional.",
    "Really impressed with the performance and reliability." ]

/-- `DataGenerator._generate_text_response`: a uniform random pick from
the fixed pool (the question text is unused by the source). -/
def generate_text_response (question_text : String) (g : Rng) : Option (String × Rng) :=
  choice textResponses g

/-- `DataGenerator._generate_answer_for_question`: type-directed answer
synthesis. -/
def generate_answer_for_question (q : Question) (g : Rng) : Option (AnswerValue × Rng) :=
  match q.type with
  | .rating => (randint 1 (pyOrInt q.range 5) g).map fun p => (AnswerValue.i p.1, p.2)
  | .nps => (randint 0 10 g).map fun p => (AnswerValue.i p.1, p.2)
  | .multipleChoiceSingle =>
    match pyChoices q with
    | [] => some (AnswerValue.s "choice-1", g)
    | c :: cs => (choice (c :: cs) g).map fun p => (AnswerValue.s p.1.id, p.2)
  | .multipleChoiceMulti =>
    match pyChoices q with
    | [] => some (AnswerValue.l ["choice-1"], g)
    | c :: cs =>
      (randint 1 (min 3 (((c :: cs).length : Int))) g).bind fun p =>
      (sample (c :: cs) p.1 p.2).map fun p2 =>
      (AnswerValue.l (p2.1.map QuestionChoice.id), p2.2)
  | .openText => (generate_text_response q.headline g).map fun p => (AnswerValue.s p.1, p.2)
  | _ => some (AnswerValue.s "Yes", g)

/-- One answer per question of the survey, in question order
(the inner loop of `DataGenerator.generate_responses`). -/
def generate_answers (qs : List Question) (g : Rng) : Option (List Answer × Rng) :=
  match qs with
  | [] => some ([], g)
  | q :: rest =>
    (generate_answer_for_question q g).bind fun p =>
    (generate_answers rest p.2).map fun p2 =>
    ({ question_id := q.id, value := p.1 } :: p2.1, p2.2)

/-- One finished `Response` per sampled user (the per-user loop of
`DataGenerator.generate_responses`). -/
def generate_user_responses (s : Survey) (us : List User) (g : Rng) :
    Option (List Response × Rng) :=
  match us with
  | [] => some ([], g)
  | u :: rest =>
    (generate_answers s.questions g).bind fun p =>
    (generate_user_responses s rest p.2).map fun p2 =>
    ({ survey_id := s.id, user_email := u.email, answers := p.1, finished := true } :: p2.1,
      p2.2)

/-- The per-survey step of `DataGenerator.generate_responses`: draw a
count in `[minP, maxP]`, sample that many users (clamped to the pool
size), and make one response per sampled user. -/
def generate_survey_responses (s : Survey) (users : List User) (minP maxP : Int)
    (g : Rng) : Option (List Response × Rng) :=
  (randint minP maxP g).bind fun p =>
  (sample users (min p.1 (users.length : Int)) p.2).bind fun p2 =>
  generate_user_responses s p2.1 p2.2

/-- The survey loop of `DataGenerator.generate_responses`, accumulating
all responses in survey order. -/
def generate_responses_aux (users : List User) (minP maxP : Int) :
    List Survey → Rng → Option (List Response × Rng)
  | [], g => some ([], g)
  | s :: rest, g =>
    (generate_survey_responses s users minP maxP g).bind fun p =>
    (generate_responses_aux users minP maxP rest p.2).map fun p2 =>
    (p.1 ++ p2.1, p2.2)

/-- `DataGenerator.generate_responses`. -/
def generate_responses (surveys : SurveyList) (users : UserList) (minP maxP : Int)
    (g : Rng) : Option (ResponseList × Rng) :=
  (generate_responses_aux users.users minP maxP surveys.surveys g).map fun p =>
  ({ responses := p.1 }, p.2)

/-- `DataGenerator.generate_users`: extract and parse the backend's
reply and validate it as a `UserList`. `llmOutput` is the text returned
by the chat call; `num_users` only feeds the instruction text sent to
the backend and does not otherwise influence the result. -/
def generate_users (num_users : Nat) (llmOutput : String) : Option UserList :=
  (Json.loads (extract_json llmOutput)).bind UserList.decode

/-- `DataGenerator.generate_surveys`: extract and parse the backend's
reply and validate it as a `SurveyList`. `num_surveys` only feeds the
instruction text sent to the backend. -/
def generate_surveys (num_surveys : Nat) (llmOutput : String) : Option SurveyList :=
  (Json.loads (extract_json llmOutput)).bind SurveyList.decode

end Generator

section Seeder

/-- Python truthiness of an optional string (`None` and `""` falsy). -/
def pyTruthyStr : Option String → Bool
  | none => false
  | some s => s != ""

/-- Python truthiness of an optional integer (`None` and `0` falsy). -/
def pyTruthyInt : Option Int → Bool
  | none => false
  | some n => n != 0

/-- Python dict assignment `m[k] = v`: replace in place when the key is
present, append otherwise. -/
def dictInsert {α : Type} : List (String × α) → String → α → List (String × α)
  | [], k, v => [(k, v)]
  | (k', v') :: rest, k, v =>
    if k' = k then (k, v) :: rest else (k', v') :: dictInsert rest k v

/-- Python dict lookup `m.get(k)` without a default. -/
def dictGet? {α : Type} : List (String × α) → String → Option α
  | [], _ => none
  | (k', v) :: rest, k => if k' = k then some v else dictGet? rest k

/-- Python `repr` of a parsed-JSON value (used by `str` on containers). -/
def Json.pyRepr : Json → String
  | .null => "None"
  | .bool b => cond b "True" "False"
  | .num n => toString n
  | .str v => squote ++ v ++ squote
  | .arr l => "[" ++ String.intercalate ", " (l.attach.map fun x => x.1.pyRepr) ++ "]"
  | .obj l => String.mk [lcur] ++
      String.intercalate ", "
        (l.attach.map fun x => squote ++ x.1.1 ++ squote ++ ": " ++ x.1.2.pyRepr) ++
      String.mk [rcur]
decreasing_by
  · have hm := List.sizeOf_lt_of_mem x.2
    simp only [Json.arr.sizeOf_spec]
    omega
  · have hm := List.sizeOf_lt_of_mem x.2
    have h2 : sizeOf x.1.2 < sizeOf x.1 := by
      obtain ⟨⟨a, b⟩, hmem⟩ := x
      simp
    simp only [Json.obj.sizeOf_spec]
    omega

/-- Python `str` of a parsed-JSON value, as interpolated into the
submission URL f-string. -/
def Json.pyStr : Json → String
  | .str v => v
  | j => j.pyRepr

/-- Python `str` of the resolved survey id (which may be `None`). -/
def pyStrOpt : Option Json → String
  | none => "None"
  | some j => j.pyStr

/-- `FormbricksSeeder._prepare_question_payload`: required fields plus
the optional fields that are truthy. -/
def prepare_question_payload (q : Question) : Json :=
  .obj ([("id", .str q.id), ("type", .str q.type.val),
         ("headline", .str q.headline), ("required", .bool q.required)] ++
    (if pyTruthyStr q.subheader then [("subheader", .str (q.subheader.getD ""))] else []) ++
    (if !(pyChoices q).isEmpty then
      [("choices", .arr ((pyChoices q).map fun c =>
        .obj [("id", .str c.id), ("label", .str c.label)]))]
     else []) ++
    (if pyTruthyStr q.scale then [("scale", .str (q.scale.getD ""))] else []) ++
    (if pyTruthyInt q.range then [("range", .num (q.range.getD 0))] else []) ++
    (if pyTruthyStr q.lowerLabel then [("lowerLabel", .str (q.lowerLabel.getD ""))] else []) ++
    (if pyTruthyStr q.upperLabel then [("upperLabel", .str (q.upperLabel.getD ""))] else []))

/-- Python `x or d` on the optional opaque cards (`None` and falsy
values fall back to the default). -/
def pyOrJson (v : Option Json) (d : Json) : Json :=
  match v with
  | none => d
  | some j => if j.truthy then j else d

/-- `FormbricksSeeder._prepare_survey_payload`. -/
def prepare_survey_payload (s : Survey) : Json :=
  .obj [("name", .str s.name), ("type", .str s.type), ("status", .str s.status),
        ("questions", .arr (s.questions.map prepare_question_payload)),
        ("welcomeCard", pyOrJson s.welcomeCard (.obj [("enabled", .bool false)])),
        ("thankYouCard", pyOrJson s.thankYouCard
          (.obj [("enabled", .bool true), ("headline", .str "Thank you!"),
                 ("subheader", .str "We appreciate your feedback.")]))]

/-- The remote management API's reply to one POST: an HTTP error status
(raising `requests.exceptions.HTTPError` via `raise_for_status`) or a
JSON object body (spec section 6: both creation endpoints answer
structured objects). The argument is the index of the call in the
batch. -/
def MgmtServer : Type := Nat → Except Nat (List (String × Json))

/-- `FormbricksSeeder.seed_users` (error-handling core): one management
POST per user; on success record `email -> body.get("id", email)`, on
any HTTP error record `email -> email` and continue. Returns the
attempted payloads and the mapping-table assignments, in batch order.
The progress rendering and the fixed rate-limit delay are elided. -/
def seed_users_run (server : MgmtServer) : Nat → List User → List Json × List (String × Json)
  | _, [] => ([], [])
  | i, u :: rest =>
    let payload : Json :=
      .obj [("email", .str u.email), ("name", .str u.name), ("role", .str u.role.val)]
    let record : String × Json :=
      match server i with
      | .ok body => (u.email, (dictGet? body "id").getD (.str u.email))
      | .error _ => (u.email, .str u.email)
    let (ps, rs) := seed_users_run server (i + 1) rest
    (payload :: ps, record :: rs)

/-- `FormbricksSeeder.seed_surveys` (error-handling core): one POST per
survey; on success record `survey.id -> body.get("id")`, on any HTTP
error record `survey.id -> survey.id` and continue with the next
survey. -/
def seed_surveys_run (server : MgmtServer) :
    Nat → List Survey → List Json × List (String × Option Json)
  | _, [] => ([], [])
  | i, s :: rest =>
    let payload := prepare_survey_payload s
    let record : String × Option Json :=
      match server i with
      | .ok body => (s.id, dictGet? body "id")
      | .error _ => (s.id, some (.str s.id))
    let (ps, rs) := seed_surveys_run server (i + 1) rest
    (payload :: ps, record :: rs)

/-- Build the `created_surveys` dict from the assignment trace. -/
def dictOfRecords {α : Type} (records : List (String × α)) : List (String × α) :=
  records.foldl (fun m r => dictInsert m r.1 r.2) []

/-- Python `str.lstrip("/")`. -/
def lstripSlash (s : String) : String :=
  String.mk (s.data.dropWhile (· = '/'))

/-- One Client-API submission: the full URL and the JSON body. -/
structure ClientRequest where
  url : String
  payload : Json

/-- `Answer.value` as the JSON sent in the response payload. -/
def AnswerValue.toJson : AnswerValue → Json
  | .s v => .str v
  | .i v => .num v
  | .l v => .arr (v.map Json.str)

/-- `FormbricksSeeder._prepare_response_payload`: collapse the answers
into a question-id-keyed dict and wrap it with the target survey id
(`none` models Python `None`, serialized as JSON null). -/
def prepare_response_payload (r : Response) (survey_id : Option Json) : Json :=
  let data := r.answers.foldl (fun m a => dictInsert m a.question_id a.value.toJson) []
  .obj [("surveyId", survey_id.getD .null), ("finished", .bool r.finished),
        ("data", .obj data)]

/-- `FormbricksSeeder.seed_responses`: resolve each response's survey id
through `created_surveys` (defaulting to the local id), build the
payload, and POST it to the Client API. Submission failures are logged
and skipped, so the emitted request sequence is exactly one request per
response, regardless of server behaviour. -/
def seed_responses_run (baseUrl envId : String) (created : List (String × Option Json)) :
    List Response → List ClientRequest
  | [] => []
  | r :: rest =>
    let api : Option Json := (dictGet? created r.survey_id).getD (some (.str r.survey_id))
    let endpoint := envId ++ "/displays/" ++ pyStrOpt api ++ "/responses"
    let url := baseUrl ++ "/client" ++ "/" ++ lstripSlash endpoint
    { url := url, payload := prepare_response_payload r api } ::
      seed_responses_run baseUrl envId created rest

/-- The configuration error raised when the API key is missing. -/
def apiKeyMsg : String :=
  "FORMBRICKS_API_KEY is required. Please update your .env file."

/-- The configuration error raised when the environment id is missing. -/
def envIdMsg : String :=
  "FORMBRICKS_ENVIRONMENT_ID is required. Please update your .env file."

/-- The connectivity error raised when the probe fails. -/
def connMsg (baseUrl : String) : String :=
  "Cannot connect to Formbricks at " ++ baseUrl ++
    ". Please ensure it" ++ squote ++ "s running with " ++ squote ++
    "python main.py formbricks up" ++ squote

/-- The error raised when an interchange file is missing. -/
def fileNotFoundMsg (filename : String) : String :=
  "Data file not found: " ++ filename ++ "\nPlease run " ++ squote ++
    "python main.py formbricks generate" ++ squote ++ " first."

/-- The schema-validation error raised when an interchange file does not
deserialize into its model (pydantic `ValidationError`; the detail text
is not modelled). -/
def validationMsg (filename : String) : String :=
  "validation failed: " ++ filename

/-- `FormbricksSeeder._load_json_file`: missing file raises a not-found
error; a payload the model rejects raises a validation error. The file
argument is its parsed JSON content (`none` = file absent). -/
def load_json_file {α : Type} (content : Option Json) (filename : String)
    (dec : Json → Option α) : Except String α :=
  match content with
  | none => .error (fileNotFoundMsg filename)
  | some j =>
    match dec j with
    | none => .error (validationMsg filename)
    | some v => .ok v

/-- An observable network operation performed by `seed_all`. -/
inductive NetEvent where
  | probe : NetEvent
  | memberPost (payload : Json) : NetEvent
  | surveyPost (payload : Json) : NetEvent
  | responsePost (req : ClientRequest) : NetEvent

/-- The external world `seed_all` interacts with: the connection probe
result, the three interchange files, and the two management servers. -/
structure SeedEnv where
  connOk : Bool
  usersFile : Option Json
  surveysFile : Option Json
  responsesFile : Option Json
  memberServer : MgmtServer
  surveyServer : MgmtServer

/-- `FormbricksSeeder.seed_all`: validate configuration (API key first,
then environment id), probe the connection, load and validate the three
interchange files, then seed users (best-effort), surveys, and
responses. Returns the network operations performed, in order, and the
error that unwound out of `seed_all`, if any. The user-seeding step is
wrapped so its failures downgrade to a warning; in this model it is
total. -/
def seed_all (apiKey envId : Option String) (baseUrl : String) (env : SeedEnv) :
    List NetEvent × Option String :=
  if !pyTruthyStr apiKey then ([], some apiKeyMsg)
  else if !pyTruthyStr envId then ([], some envIdMsg)
  else if !env.connOk then ([.probe], some (connMsg baseUrl))
  else
    match load_json_file env.usersFile "users.json" UserList.decode with
    | .error m => ([.probe], some m)
    | .ok users =>
      match load_json_file env.surveysFile "surveys.json" SurveyList.decode with
      | .error m => ([.probe], some m)
      | .ok surveys =>
        match load_json_file env.responsesFile "responses.json" ResponseList.decode with
        | .error m => ([.probe], some m)
        | .ok responses =>
          let (uPayloads, _) := seed_users_run env.memberServer 0 users.users
          let (sPayloads, sRecords) := seed_surveys_run env.surveyServer 0 surveys.surveys
          let created := dictOfRecords sRecords
          let reqs := seed_responses_run baseUrl (envId.getD "") created responses.responses
          (NetEvent.probe :: (uPayloads.map NetEvent.memberPost ++
            sPayloads.map NetEvent.surveyPost ++ reqs.map NetEvent.responsePost), none)

end Seeder

section ExtractionLemmas

/-- `i` is the index of the first occurrence of `c`. -/
def IsFirstOcc (c : Char) (cs : List Char) (i : Nat) : Prop :=
  cs[i]? = some c ∧ c ∉ cs.take i

/-- `j` is the index of the last occurrence of `c`. -/
def IsLastOcc (c : Char) (cs : List Char) (j : Nat) : Prop :=
  cs[j]? = some c ∧ c ∉ cs.drop (j + 1)

theorem firstIdx_eq_none_iff {c : Char} {cs : List Char} :
    firstIdx c cs = none ↔ c ∉ cs := by
  induction cs with
  | nil => simp [firstIdx]
  | cons a rest ih =>
    by_cases hac : a = c
    · subst hac
      simp [firstIdx]
    · simp only [firstIdx, if_neg hac, Option.map_eq_none', List.mem_cons, ih]
      constructor
      · intro h hmem
        rcases hmem with h' | h'
        · exact hac h'.symm
        · exact h h'
      · intro h
        exact fun hm => h (Or.inr hm)

theorem firstIdx_eq_some_iff {c : Char} {cs : List Char} {i : Nat} :
    firstIdx c cs = some i ↔ IsFirstOcc c cs i := by
  induction cs generalizing i with
  | nil => simp [firstIdx, IsFirstOcc]
  | cons a rest ih =>
    by_cases hac : a = c
    · subst hac
      simp only [firstIdx, if_pos rfl, IsFirstOcc]
      constructor
      · rintro h
        cases h
        simp
      · rintro ⟨hget, hnot⟩
        cases i with
        | zero => rfl
        | succ k =>
          exfalso
          exact hnot (by simp)
    · simp only [firstIdx, if_neg hac, IsFirstOcc]
      cases i with
      | zero =>
        simp only [List.getElem?_cons_zero, List.take_zero, List.not_mem_nil,
          not_false_eq_true, and_true]
        constructor
        · intro h
          rcases Option.map_eq_some.mp h with ⟨k, _, hk⟩
          omega
        · intro h
          exact absurd (Option.some.inj h) hac
      | succ k =>
        simp only [List.getElem?_cons_succ, List.take_succ_cons, List.mem_cons]
        constructor
        · intro h
          rcases Option.map_eq_some.mp h with ⟨k', hk', hkk⟩
          have : k' = k := by omega
          subst this
          rcases ih.mp hk' with ⟨hget, hnot⟩
          refine ⟨hget, ?_⟩
          intro hmem
          rcases hmem with h' | h'
          · exact hac h'.symm
          · exact hnot h'
        · rintro ⟨hget, hnot⟩
          have : firstIdx c rest = some k :=
            ih.mpr ⟨hget, fun hm => hnot (Or.inr hm)⟩
          simp [this]

theorem lastIdx_eq_none_iff {c : Char} {cs : List Char} :
    lastIdx c cs = none ↔ c ∉ cs := by
  induction cs with
  | nil => simp [lastIdx]
  | cons a rest ih =>
    cases hrest : lastIdx c rest with
    | some j =>
      have hmem : c ∈ rest := by
        by_contra hnm
        rw [ih.mpr hnm] at hrest
        cases hrest
      simp [lastIdx, hrest, List.mem_cons, hmem]
    | none =>
      have hnm : c ∉ rest := ih.mp hrest
      by_cases hac : a = c
      · subst hac
        simp [lastIdx, hrest]
      · simp only [lastIdx, hrest, if_neg hac, List.mem_cons, true_iff]
        rintro (h' | h')
        · exact hac h'.symm
        · exact hnm h'

theorem lastIdx_eq_some_iff {c : Char} {cs : List Char} {j : Nat} :
    lastIdx c cs = some j ↔ IsLastOcc c cs j := by
  induction cs generalizing j with
  | nil => simp [lastIdx, IsLastOcc]
  | cons a rest ih =>
    simp only [lastIdx, IsLastOcc]
    cases hrest : lastIdx c rest with
    | some k =>
      simp only [hrest]
      constructor
      · intro h
        cases h
        rcases ih.mp hrest with ⟨hget, hnot⟩
        exact ⟨by simpa using hget, by simpa using hnot⟩
      · rintro ⟨hget, hnot⟩
        cases j with
        | zero =>
          exfalso
          have hmem : c ∈ rest := by
            rcases ih.mp hrest with ⟨hg, _⟩
            exact List.getElem?_mem hg
          simpa using hnot hmem
        | succ j' =>
          have hj' : lastIdx c rest = some j' :=
            ih.mpr ⟨by simpa using hget, by simpa using hnot⟩
          rw [hrest] at hj'
          cases hj'
          rfl
    | none =>
      have hnm : c ∉ rest := lastIdx_eq_none_iff.mp hrest
      by_cases hac : a = c
      · subst hac
        simp only [hrest, if_pos rfl]
        constructor
        · intro h
          cases h
          simpa using hnm
        · rintro ⟨hget, hnot⟩
          cases j with
          | zero => rfl
          | succ j' =>
            exfalso
            exact hnm (List.getElem?_mem (by simpa using hget))
      · simp only [hrest, if_neg hac]
        constructor
        · intro h; cases h
        · rintro ⟨hget, hnot⟩
          exfalso
          cases j with
          | zero =>
            have hz : a = c := by simpa using hget
            exact hac hz
          | succ j' => exact hnm (List.getElem?_mem (by simpa using hget))

end ExtractionLemmas

section RandomLemmas

theorem randint_spec {a b : Int} {g g' : Rng} {n : Int}
    (h : randint a b g = some (n, g')) : a ≤ n ∧ n ≤ b := by
  unfold randint at h
  split at h
  · next hab =>
    have h' : a + ((g.next.1 : Int)) % (b - a + 1) = n :=
      congrArg Prod.fst (Option.some.inj h)
    have hpos : (0 : Int) < b - a + 1 := by omega
    have h1 : 0 ≤ ((g.next.1 : Int)) % (b - a + 1) :=
      Int.emod_nonneg _ (by omega)
    have h2 : ((g.next.1 : Int)) % (b - a + 1) < b - a + 1 :=
      Int.emod_lt_of_pos _ hpos
    omega
  · cases h

theorem choice_spec {α : Type} {l : List α} {g g' : Rng} {x : α}
    (h : choice l g = some (x, g')) : x ∈ l := by
  unfold choice at h
  cases l with
  | nil => cases h
  | cons a rest =>
    have hx : _ = x := congrArg Prod.fst (Option.some.inj h)
    rw [← hx]
    exact List.get_mem ..

/-- The drawn element together with the rest of the population is a
permutation of the population. -/
theorem get_cons_eraseIdx_perm {α : Type} :
    ∀ (l : List α) (i : Nat) (h : i < l.length),
      (l.get ⟨i, h⟩ :: l.eraseIdx i).Perm l := by
  intro l
  induction l with
  | nil => intro i h; cases h
  | cons a rest ih =>
    intro i h
    cases i with
    | zero => simp
    | succ i' =>
      have h' : i' < rest.length := by simpa using h
      calc ((a :: rest).get ⟨i' + 1, h⟩ :: (a :: rest).eraseIdx (i' + 1))
          = rest.get ⟨i', h'⟩ :: a :: rest.eraseIdx i' := by simp [List.eraseIdx]
        _ ~ a :: rest.get ⟨i', h'⟩ :: rest.eraseIdx i' := List.Perm.swap ..
        _ ~ a :: rest := (ih i' h').cons a

theorem sampleAux_subperm {α : Type} :
    ∀ (k : Nat) (pop : List α) (g : Rng), (sampleAux k pop g).1 <+~ pop := by
  intro k
  induction k with
  | zero => intro pop g; simp [sampleAux]
  | succ k' ih =>
    intro pop g
    cases pop with
    | nil => simp [sampleAux]
    | cons a rest =>
      show _ :: _ <+~ a :: rest
      rcases ih ((a :: rest).eraseIdx (g.next.1 % (a :: rest).length)) g.next.2 with
        ⟨l', hperm, hsl⟩
      exact List.Subperm.trans ⟨_ :: l', hperm.cons _, hsl.cons₂ _⟩
        (get_cons_eraseIdx_perm (a :: rest) _ _).subperm

theorem sampleAux_length {α : Type} :
    ∀ (k : Nat) (pop : List α) (g : Rng), k ≤ pop.length →
      (sampleAux k pop g).1.length = k := by
  intro k
  induction k with
  | zero => intro pop g _; simp [sampleAux]
  | succ k' ih =>
    intro pop g hk
    cases pop with
    | nil => simp at hk
    | cons a rest =>
      show ((_ : α) :: _).length = k' + 1
      rw [List.length_cons]
      have hlen : ((a :: rest).eraseIdx (g.next.1 % (a :: rest).length)).length =
          rest.length := by
        rw [List.length_eraseIdx_of_lt (Nat.mod_lt _ (by simp))]
        simp
      rw [ih _ g.next.2 (by rw [hlen]; simpa using hk)]

theorem sample_spec {α : Type} {pop : List α} {k : Int} {g g' : Rng} {sel : List α}
    (h : sample pop k g = some (sel, g')) :
    (sel.length : Int) = k ∧ sel <+~ pop := by
  unfold sample at h
  split at h
  · next hk =>
    have hs : (sampleAux k.toNat pop g).1 = sel :=
      congrArg Prod.fst (Option.some.inj h)
    constructor
    · rw [← hs, sampleAux_length _ _ _ hk.2]
      exact Int.toNat_of_nonneg hk.1
    · rw [← hs]
      exact sampleAux_subperm ..
  · cases h

/-- A subpermutation of a duplicate-free list is duplicate-free. -/
theorem subperm_nodup {α : Type} {l₁ l₂ : List α} (h : l₁ <+~ l₂)
    (hd : l₂.Nodup) : l₁.Nodup := by
  rcases h with ⟨l', hperm, hsl⟩
  exact hperm.nodup (hsl.nodup hd)

end RandomLemmas

section GeneratorSpecs

/-- Domain of a generated answer value, by question type, exactly as
`_generate_answer_for_question` produces it: ratings lie in
`[1, range-or-5]` (Python `or`: the default applies when `range` is
unset or zero), NPS in `[0, 10]`, single choice is a choice id of the
question (the literal `"choice-1"` when no choices are present), multi
choice is the id list of a positionally-distinct selection of 1 to
`min 3 (number of choices)` choices (the literal `["choice-1"]` when no
choices are present), open text comes from the fixed pool, and any
other type is the literal `"Yes"`. -/
def valueOk (q : Question) (v : AnswerValue) : Prop :=
  match q.type with
  | .rating => ∃ n : Int, v = AnswerValue.i n ∧ 1 ≤ n ∧ n ≤ pyOrInt q.range 5
  | .nps => ∃ n : Int, v = AnswerValue.i n ∧ 0 ≤ n ∧ n ≤ 10
  | .multipleChoiceSingle =>
    match pyChoices q with
    | [] => v = AnswerValue.s "choice-1"
    | c :: cs => ∃ ch ∈ c :: cs, v = AnswerValue.s ch.id
  | .multipleChoiceMulti =>
    match pyChoices q with
    | [] => v = AnswerValue.l ["choice-1"]
    | c :: cs =>
      ∃ sel : List QuestionChoice, sel <+~ (c :: cs) ∧ 1 ≤ sel.length ∧
        sel.length ≤ min 3 (c :: cs).length ∧ v = AnswerValue.l (sel.map QuestionChoice.id)
  | .openText => ∃ t ∈ textResponses, v = AnswerValue.s t
  | _ => v = AnswerValue.s "Yes"

theorem generate_answer_for_question_spec {q : Question} {g g' : Rng} {v : AnswerValue}
    (h : generate_answer_for_question q g = some (v, g')) : valueOk q v := by
  unfold generate_answer_for_question at h
  unfold valueOk
  cases htype : q.type <;> rw [htype] at h <;> simp only []
  case rating =>
    rcases Option.map_eq_some.mp h with ⟨⟨n, g1⟩, hr, hv⟩
    rcases randint_spec hr with ⟨h1, h2⟩
    exact ⟨n, (congrArg Prod.fst hv).symm, h1, h2⟩
  case nps =>
    rcases Option.map_eq_some.mp h with ⟨⟨n, g1⟩, hr, hv⟩
    rcases randint_spec hr with ⟨h1, h2⟩
    exact ⟨n, (congrArg Prod.fst hv).symm, h1, h2⟩
  case multipleChoiceSingle =>
    cases hch : pyChoices q with
    | nil =>
      rw [hch] at h
      exact (congrArg Prod.fst (Option.some.inj h)).symm
    | cons c cs =>
      rw [hch] at h
      rcases Option.map_eq_some.mp h with ⟨⟨ch, g1⟩, hc, hv⟩
      exact ⟨ch, choice_spec hc, (congrArg Prod.fst hv).symm⟩
  case multipleChoiceMulti =>
    cases hch : pyChoices q with
    | nil =>
      rw [hch] at h
      exact (congrArg Prod.fst (Option.some.inj h)).symm
    | cons c cs =>
      rw [hch] at h
      rcases Option.bind_eq_some.mp h with ⟨⟨n, g1⟩, hr, hrest⟩
      rcases Option.map_eq_some.mp hrest with ⟨⟨sel, g2⟩, hs, hv⟩
      rcases randint_spec hr with ⟨hn1, hn2⟩
      rcases sample_spec hs with ⟨hlen, hsub⟩
      refine ⟨sel, hsub, ?_, ?_, (congrArg Prod.fst hv).symm⟩
      · omega
      · have : (n : Int) ≤ ((min 3 (c :: cs).length : Nat) : Int) := by
          rw [Nat.cast_min]
          push_cast
          omega
        omega
  case openText =>
    rcases Option.map_eq_some.mp h with ⟨⟨t, g1⟩, hc, hv⟩
    unfold generate_text_response at hc
    exact ⟨t, choice_spec hc, (congrArg Prod.fst hv).symm⟩
  case cta => exact (congrArg Prod.fst (Option.some.inj h)).symm
  case consent => exact (congrArg Prod.fst (Option.some.inj h)).symm

theorem generate_answers_spec {qs : List Question} {g g' : Rng} {ans : List Answer}
    (h : generate_answers qs g = some (ans, g')) :
    ans.length = qs.length ∧
      ∀ i (h1 : i < qs.length) (h2 : i < ans.length),
        (ans[i]).question_id = (qs[i]).id ∧ valueOk qs[i] (ans[i]).value := by
  induction qs generalizing g g' ans with
  | nil =>
    cases Option.some.inj h
    simp
  | cons q rest ih =>
    unfold generate_answers at h
    rcases Option.bind_eq_some.mp h with ⟨⟨v, g1⟩, hv, hrest⟩
    rcases Option.map_eq_some.mp hrest with ⟨⟨ans', g2⟩, hans', heq⟩
    have hfst := congrArg Prod.fst heq
    simp only [] at hfst
    rw [← hfst]
    rcases ih hans' with ⟨hlen, hpt⟩
    constructor
    · simp [hlen]
    · intro i h1 h2
      cases i with
      | zero =>
        constructor
        · rfl
        · exact generate_answer_for_question_spec hv
      | succ i' =>
        have h1' : i' < rest.length := by simpa using h1
        have h2' : i' < ans'.length := by simpa using h2
        simpa using hpt i' h1' h2'

/-- Full shape of one generated response relative to its survey and
responding user. -/
def responseOk (s : Survey) (u : User) (r : Response) : Prop :=
  r.survey_id = s.id ∧ r.user_email = u.email ∧ r.finished = true ∧
    r.answers.length = s.questions.length ∧
    ∀ i (h1 : i < s.questions.length) (h2 : i < r.answers.length),
      (r.answers[i]).question_id = (s.questions[i]).id ∧
        valueOk s.questions[i] (r.answers[i]).value

theorem generate_user_responses_spec {s : Survey} {us : List User} {g g' : Rng}
    {rs : List Response} (h : generate_user_responses s us g = some (rs, g')) :
    rs.length = us.length ∧
      ∀ i (h1 : i < us.length) (h2 : i < rs.length), responseOk s us[i] rs[i] := by
  induction us generalizing g g' rs with
  | nil =>
    cases Option.some.inj h
    simp
  | cons u rest ih =>
    unfold generate_user_responses at h
    rcases Option.bind_eq_some.mp h with ⟨⟨ans, g1⟩, hans, hrest⟩
    rcases Option.map_eq_some.mp hrest with ⟨⟨rs', g2⟩, hrs', heq⟩
    have hfst := congrArg Prod.fst heq
    simp only [] at hfst
    rw [← hfst]
    rcases ih hrs' with ⟨hlen, hpt⟩
    constructor
    · simp [hlen]
    · intro i h1 h2
      cases i with
      | zero =>
        rcases generate_answers_spec hans with ⟨halen, hapt⟩
        exact ⟨rfl, rfl, rfl, halen, hapt⟩
      | succ i' =>
        have h1' : i' < rest.length := by simpa using h1
        have h2' : i' < rs'.length := by simpa using h2
        simpa using hpt i' h1' h2'

/-- Shape of one survey's response block: a drawn count in range, a
sample of users from distinct pool positions, clamped to the pool size,
and one well-formed response per sampled user. -/
def surveyBlockOk (users : List User) (minP maxP : Int) (s : Survey)
    (block : List Response) : Prop :=
  ∃ (n : Int) (sel : List User), minP ≤ n ∧ n ≤ maxP ∧ sel <+~ users ∧
    (sel.length : Int) = min n (users.length : Int) ∧
    block.length = sel.length ∧
    ∀ i (h1 : i < sel.length) (h2 : i < block.length), responseOk s sel[i] block[i]

theorem generate_survey_responses_spec {s : Survey} {users : List User}
    {minP maxP : Int} {g g' : Rng} {rs : List Response}
    (h : generate_survey_responses s users minP maxP g = some (rs, g')) :
    surveyBlockOk users minP maxP s rs := by
  unfold generate_survey_responses at h
  rcases Option.bind_eq_some.mp h with ⟨⟨n, g1⟩, hr, hrest⟩
  rcases Option.bind_eq_some.mp hrest with ⟨⟨sel, g2⟩, hs, hus⟩
  rcases randint_spec hr with ⟨hn1, hn2⟩
  rcases sample_spec hs with ⟨hlen, hsub⟩
  rcases generate_user_responses_spec hus with ⟨hrlen, hrpt⟩
  exact ⟨n, sel, hn1, hn2, hsub, hlen, hrlen, hrpt⟩

theorem generate_responses_aux_spec {users : List User} {minP maxP : Int}
    {ss : List Survey} {g g' : Rng} {rs : List Response}
    (h : generate_responses_aux users minP maxP ss g = some (rs, g')) :
    ∃ blocks : List (List Response), rs = blocks.flatten ∧
      List.Forall₂ (surveyBlockOk users minP maxP) ss blocks := by
  induction ss generalizing g g' rs with
  | nil =>
    cases Option.some.inj h
    exact ⟨[], by simp, List.Forall₂.nil⟩
  | cons s rest ih =>
    unfold generate_responses_aux at h
    rcases Option.bind_eq_some.mp h with ⟨⟨block, g1⟩, hblock, hrest⟩
    rcases Option.map_eq_some.mp hrest with ⟨⟨rs', g2⟩, hrs', heq⟩
    have hfst := congrArg Prod.fst heq
    simp only [] at hfst
    rcases ih hrs' with ⟨blocks, hflat, hall⟩
    refine ⟨block :: blocks, ?_, List.Forall₂.cons (generate_survey_responses_spec hblock) hall⟩
    rw [← hfst, hflat]
    simp

end GeneratorSpecs

section DecoderLemmas

theorem decodeList_length {α : Type} {dec : Json → Option α} :
    ∀ {js : List Json} {xs : List α}, decodeList dec js = some xs →
      xs.length = js.length := by
  intro js
  induction js with
  | nil => intro xs h; cases Option.some.inj h; rfl
  | cons j rest ih =>
    intro xs h
    rcases Option.bind_eq_some.mp h with ⟨a, ha, h2⟩
    rcases Option.map_eq_some.mp h2 with ⟨as, has, h3⟩
    rw [← h3]
    simp [ih has]

theorem decodeList_mem {α : Type} {dec : Json → Option α} :
    ∀ {js : List Json} {xs : List α}, decodeList dec js = some xs →
      ∀ x ∈ xs, ∃ j ∈ js, dec j = some x := by
  intro js
  induction js with
  | nil =>
    intro xs h
    cases Option.some.inj h
    simp
  | cons j rest ih =>
    intro xs h x hx
    rcases Option.bind_eq_some.mp h with ⟨a, ha, h2⟩
    rcases Option.map_eq_some.mp h2 with ⟨as, has, h3⟩
    rw [← h3] at hx
    rcases List.mem_cons.mp hx with h' | h'
    · exact ⟨j, List.mem_cons_self .., h' ▸ ha⟩
    · rcases ih has x h' with ⟨j', hj', hdec⟩
      exact ⟨j', List.mem_cons_of_mem _ hj', hdec⟩

theorem decodeList_map_rel {α β : Type} {dec : Json → Option α}
    (f : Json → Option β) (gmap : α → β)
    (hrel : ∀ j x, dec j = some x → f j = some (gmap x)) :
    ∀ {js : List Json} {xs : List α}, decodeList dec js = some xs →
      js.map f = xs.map fun x => some (gmap x) := by
  intro js
  induction js with
  | nil => intro xs h; cases Option.some.inj h; rfl
  | cons j rest ih =>
    intro xs h
    rcases Option.bind_eq_some.mp h with ⟨a, ha, h2⟩
    rcases Option.map_eq_some.mp h2 with ⟨as, has, h3⟩
    rw [← h3]
    simp [hrel j a ha, ih has]

theorem User.decode_validEmail {j : Json} {u : User}
    (h : User.decode j = some u) : validEmail u.email = true := by
  simp only [User.decode, Option.bind_eq_some] at h
  obtain ⟨name, hname, email, hemail, h⟩ := h
  split at h
  · next hval =>
    obtain ⟨role, hrole, h⟩ := Option.bind_eq_some.mp h
    cases Option.some.inj h
    exact hval
  · cases h

theorem QuestionType.decode_inv {j : Json} {t : QuestionType}
    (h : QuestionType.decode j = some t) : j = .str t.val := by
  unfold QuestionType.decode at h
  split at h <;> simp_all [QuestionType.val] <;> subst h <;> rfl

theorem Question_decode_facts {j : Json} {q : Question}
    (h : Question.decode j = some q) :
    j.getStr "id" = some q.id ∧
      (∃ tv, j.getField "type" = some tv ∧ QuestionType.decode tv = some q.type) ∧
      decodeOptField j "choices" decodeChoicesField = some q.choices := by
  simp only [Question.decode, Option.bind_eq_some] at h
  obtain ⟨id, hid, ty, hty, hl, hhl, sub, hsub, req, hreq, ch, hch, sc, hsc,
    ra, hra, lo, hlo, up, hup, h⟩ := h
  cases Option.some.inj h
  exact ⟨hid, hty, hch⟩

theorem Survey_decode_facts {j : Json} {s : Survey}
    (h : Survey.decode j = some s) :
    j.getStr "id" = some s.id ∧
      ∃ qitems, j.getField "questions" = some (.arr qitems) ∧
        decodeList Question.decode qitems = some s.questions := by
  simp only [Survey.decode, Option.bind_eq_some] at h
  obtain ⟨id, hid, name, hname, qs, hqs, st, hst, ty, hty, wc, hwc, tc, htc, h⟩ := h
  cases Option.some.inj h
  refine ⟨hid, ?_⟩
  rcases hqs with ⟨qv, hqv, hdec⟩
  cases qv with
  | arr items => exact ⟨items, hqv, hdec⟩
  | null => cases hdec
  | bool b => cases hdec
  | num n => cases hdec
  | str sv => cases hdec
  | obj f => cases hdec

/-- A parsed question is one of the two multiple-choice types. -/
def jsonQuestionMC (qj : Json) : Prop :=
  qj.getField "type" = some (.str "multipleChoiceSingle") ∨
    qj.getField "type" = some (.str "multipleChoiceMulti")

/-- The claim's invariant, read off the parsed survey payload: distinct
question id strings, and a nonempty choices array on every
multiple-choice question. -/
def jsonSurveyInv (sj : Json) : Prop :=
  ∀ qitems, sj.getField "questions" = some (.arr qitems) →
    (qitems.map fun qj => qj.getStr "id").Nodup ∧
      ∀ qj ∈ qitems, jsonQuestionMC qj →
        ∃ items, qj.getField "choices" = some (.arr items) ∧ items ≠ []

/-- The claim's invariant on a decoded survey: distinct question ids and
nonempty choices on every multiple-choice question. -/
def surveyInvariant (s : Survey) : Prop :=
  (s.questions.map Question.id).Nodup ∧
    ∀ q ∈ s.questions,
      (q.type = .multipleChoiceSingle ∨ q.type = .multipleChoiceMulti) →
        pyChoices q ≠ []

theorem Question.decode_mc_choices {j : Json} {q : Question}
    (h : Question.decode j = some q)
    (hmc : q.type = .multipleChoiceSingle ∨ q.type = .multipleChoiceMulti)
    (hinv : jsonQuestionMC j →
      ∃ items, j.getField "choices" = some (.arr items) ∧ items ≠ []) :
    pyChoices q ≠ [] := by
  rcases Question_decode_facts h with ⟨-, hty, hch⟩
  rcases hty with ⟨tv, htv, hdec⟩
  have htv' : tv = .str q.type.val := QuestionType.decode_inv hdec
  have hjmc : jsonQuestionMC j := by
    rcases hmc with h' | h'
    · exact Or.inl (by rw [htv, htv', h']; rfl)
    · exact Or.inr (by rw [htv, htv', h']; rfl)
  rcases hinv hjmc with ⟨items, hitems, hne⟩
  unfold decodeOptField at hch
  rw [hitems] at hch
  rcases Option.map_eq_some.mp hch with ⟨cs, hcs, hcs'⟩
  unfold decodeChoicesField at hcs
  have hlen := decodeList_length hcs
  have : pyChoices q = cs := by
    unfold pyChoices
    rw [← hcs']
  rw [this]
  intro hnil
  rw [hnil] at hlen
  have hz : items.length = 0 := by simpa using hlen.symm
  exact hne (List.eq_nil_of_length_eq_zero hz)

theorem Survey.decode_invariant {j : Json} {s : Survey}
    (h : Survey.decode j = some s) (hinv : jsonSurveyInv j) :
    surveyInvariant s := by
  rcases Survey_decode_facts h with ⟨-, qitems, hq, hdec⟩
  rcases hinv qitems hq with ⟨hnodup, hmcq⟩
  constructor
  · have hmap := decodeList_map_rel (fun qj => qj.getStr "id") Question.id
      (fun j' q' h' => (Question_decode_facts h').1) hdec
    rw [hmap] at hnodup
    have : (s.questions.map fun x => some (Question.id x)) =
        (s.questions.map Question.id).map some := by simp
    rw [this] at hnodup
    exact hnodup.of_map _
  · intro q hqmem hmc
    rcases decodeList_mem hdec q hqmem with ⟨qj, hqj, hqdec⟩
    exact Question.decode_mc_choices hqdec hmc (hmcq qj hqj)

end DecoderLemmas

section SeederLemmas

/-- The value `seed_users` records for one user, given the server's
reply to that user's POST. -/
def userRecordValue (u : User) : Except Nat (List (String × Json)) → Json
  | .ok body => (dictGet? body "id").getD (.str u.email)
  | .error _ => .str u.email

theorem seed_users_run_spec (server : MgmtServer) :
    ∀ (start : Nat) (us : List User),
      (seed_users_run server start us).1.length = us.length ∧
      (seed_users_run server start us).2.length = us.length ∧
      ∀ i (h : i < us.length),
        (seed_users_run server start us).2[i]? =
          some ((us[i]).email, userRecordValue us[i] (server (start + i))) := by
  intro start us
  induction us generalizing start with
  | nil => simp [seed_users_run]
  | cons u rest ih =>
    refine ⟨by simp [seed_users_run, (ih (start + 1)).1], by simp [seed_users_run, (ih (start + 1)).2.1], ?_⟩
    intro i h
    cases i with
    | zero =>
      simp only [seed_users_run, List.getElem?_cons_zero, Nat.add_zero,
        List.getElem_cons_zero]
      cases server start <;> rfl
    | succ i' =>
      have h' : i' < rest.length := by simpa using h
      have hstep := (ih (start + 1)).2.2 i' h'
      have harg : start + 1 + i' = start + (i' + 1) := by omega
      rw [harg] at hstep
      simp only [seed_users_run, List.getElem?_cons_succ, List.getElem_cons_succ]
      exact hstep

/-- The value `seed_surveys` records for one survey, given the server's
reply to that survey's POST. -/
def surveyRecordValue (s : Survey) : Except Nat (List (String × Json)) → Option Json
  | .ok body => dictGet? body "id"
  | .error _ => some (.str s.id)

theorem seed_surveys_run_spec (server : MgmtServer) :
    ∀ (start : Nat) (ss : List Survey),
      (seed_surveys_run server start ss).1.length = ss.length ∧
      (seed_surveys_run server start ss).2.length = ss.length ∧
      ∀ i (h : i < ss.length),
        (seed_surveys_run server start ss).1[i]? =
          some (prepare_survey_payload ss[i]) ∧
        (seed_surveys_run server start ss).2[i]? =
          some ((ss[i]).id, surveyRecordValue ss[i] (server (start + i))) := by
  intro start ss
  induction ss generalizing start with
  | nil => simp [seed_surveys_run]
  | cons s rest ih =>
    refine ⟨by simp [seed_surveys_run, (ih (start + 1)).1], by simp [seed_surveys_run, (ih (start + 1)).2.1], ?_⟩
    intro i h
    cases i with
    | zero =>
      constructor
      · simp only [seed_surveys_run, List.getElem?_cons_zero, List.getElem_cons_zero]
      · simp only [seed_surveys_run, List.getElem?_cons_zero, Nat.add_zero,
          List.getElem_cons_zero]
        cases server start <;> rfl
    | succ i' =>
      have h' : i' < rest.length := by simpa using h
      rcases (ih (start + 1)).2.2 i' h' with ⟨hp, hr⟩
      have harg : start + 1 + i' = start + (i' + 1) := by omega
      rw [harg] at hr
      constructor
      · simp only [seed_surveys_run, List.getElem?_cons_succ, List.getElem_cons_succ]
        exact hp
      · simp only [seed_surveys_run, List.getElem?_cons_succ, List.getElem_cons_succ]
        exact hr

/-- The survey id a response is submitted against: the mapping-table
entry when one exists, the local id otherwise. -/
def resolvedSurveyId (created : List (String × Option Json)) (r : Response) : Option Json :=
  (dictGet? created r.survey_id).getD (some (.str r.survey_id))

/-- The single Client-API request `seed_responses` emits for a
response. -/
def responseRequest (baseUrl envId : String) (created : List (String × Option Json))
    (r : Response) : ClientRequest :=
  { url := baseUrl ++ "/client" ++ "/" ++
      lstripSlash (envId ++ "/displays/" ++ pyStrOpt (resolvedSurveyId created r) ++
        "/responses"),
    payload := prepare_response_payload r (resolvedSurveyId created r) }

theorem seed_responses_run_spec (baseUrl envId : String)
    (created : List (String × Option Json)) :
    ∀ (rs : List Response),
      (seed_responses_run baseUrl envId created rs).length = rs.length ∧
      ∀ i (h : i < rs.length),
        (seed_responses_run baseUrl envId created rs)[i]? =
          some (responseRequest baseUrl envId created rs[i]) := by
  intro rs
  induction rs with
  | nil => simp [seed_responses_run]
  | cons r rest ih =>
    refine ⟨by simp [seed_responses_run, ih.1], ?_⟩
    intro i h
    cases i with
    | zero =>
      simp only [seed_responses_run, List.getElem?_cons_zero]
      rfl
    | succ i' =>
      have h' : i' < rest.length := by simpa using h
      simp only [seed_responses_run, List.getElem?_cons_succ]
      exact ih.2 i' h'

end SeederLemmas

section Claims

set_option maxRecDepth 10000

/-- C1: For every Response processed by `seed_responses`, the submitted
payload's `surveyId` (and the survey segment of the submission URL)
equals the mapping table's entry for `response.survey_id` when one
exists (`resolvedSurveyId`), and equals `response.survey_id` itself
verbatim when no entry exists; exactly one request is emitted per
response. -/
theorem claim_C1 (baseUrl envId : String) (created : List (String × Option Json))
    (rs : List Response) (i : Nat) (h : i < rs.length) :
    (seed_responses_run baseUrl envId created rs).length = rs.length ∧
    (seed_responses_run baseUrl envId created rs)[i]? =
      some (responseRequest baseUrl envId created rs[i]) ∧
    (responseRequest baseUrl envId created rs[i]).payload.getField "surveyId" =
      some ((resolvedSurveyId created rs[i]).getD .null) ∧
    (responseRequest baseUrl envId created rs[i]).url =
      baseUrl ++ "/client" ++ "/" ++ lstripSlash (envId ++ "/displays/" ++
        pyStrOpt (resolvedSurveyId created rs[i]) ++ "/responses") := by
  refine ⟨(seed_responses_run_spec baseUrl envId created rs).1,
    (seed_responses_run_spec baseUrl envId created rs).2 i h, ?_, rfl⟩
  rfl

def c1Created : List (String × Option Json) := [("local-1", some (.str "remote-9"))]

def c1RespA : Response :=
  { survey_id := "local-1", user_email := "a@b.co", answers := [], finished := true }

def c1RespB : Response :=
  { survey_id := "local-2", user_email := "a@b.co", answers := [], finished := true }

theorem claim_C1_witness :
    ((seed_responses_run "https://localhost:3000" "env-1" c1Created
        [c1RespA, c1RespB])[0]?).map ClientRequest.url =
      some "https://localhost:3000/client/env-1/displays/remote-9/responses" ∧
    ((seed_responses_run "https://localhost:3000" "env-1" c1Created
        [c1RespA, c1RespB])[1]?).map ClientRequest.url =
      some "https://localhost:3000/client/env-1/displays/local-2/responses" := by
  constructor
  · rw [(claim_C1 "https://localhost:3000" "env-1" c1Created [c1RespA, c1RespB]
      0 (by decide)).2.1]
    rfl
  · rw [(claim_C1 "https://localhost:3000" "env-1" c1Created [c1RespA, c1RespB]
      1 (by decide)).2.1]
    rfl

/-- C2 (amended): extraction returns the input unchanged when no opening
delimiter occurs, and also when no closing delimiter of either kind
occurs; otherwise the slice runs from the first `lcur` — or, only when
no `lcur` occurs anywhere, the first `lsq` — to the last `rcur` — or,
only when no `rcur` occurs anywhere, the last `rsq`. The opening and
closing delimiter types are chosen independently, not by matching the
opening delimiter's type. -/
theorem claim_C2 (s : String) :
    ((lcur ∉ s.data ∧ lsq ∉ s.data) → extract_json s = s) ∧
    ((rcur ∉ s.data ∧ rsq ∉ s.data) → extract_json s = s) ∧
    (∀ i j,
      (IsFirstOcc lcur s.data i ∨ (lcur ∉ s.data ∧ IsFirstOcc lsq s.data i)) →
      (IsLastOcc rcur s.data j ∨ (rcur ∉ s.data ∧ IsLastOcc rsq s.data j)) →
      extract_json s = String.mk ((s.data.drop i).take (j + 1 - i))) := by
  refine ⟨?_, ?_, ?_⟩
  · rintro ⟨h1, h2⟩
    simp [extract_json, firstIdx_eq_none_iff.mpr h1, firstIdx_eq_none_iff.mpr h2]
  · rintro ⟨h1, h2⟩
    unfold extract_json
    cases hf : firstIdx lcur s.data with
    | some i =>
      simp [hf, lastIdx_eq_none_iff.mpr h1, lastIdx_eq_none_iff.mpr h2]
    | none =>
      cases hf2 : firstIdx lsq s.data with
      | some i =>
        simp [hf, hf2, lastIdx_eq_none_iff.mpr h1, lastIdx_eq_none_iff.mpr h2]
      | none => simp [hf, hf2]
  · intro i j hfirst hlast
    rcases hfirst with hf | ⟨hno, hf⟩ <;> rcases hlast with hl | ⟨hnoL, hl⟩
    · simp [extract_json, firstIdx_eq_some_iff.mpr hf, lastIdx_eq_some_iff.mpr hl]
    · simp [extract_json, firstIdx_eq_some_iff.mpr hf,
        lastIdx_eq_none_iff.mpr hnoL, lastIdx_eq_some_iff.mpr hl]
    · simp [extract_json, firstIdx_eq_none_iff.mpr hno,
        firstIdx_eq_some_iff.mpr hf, lastIdx_eq_some_iff.mpr hl]
    · simp [extract_json, firstIdx_eq_none_iff.mpr hno, firstIdx_eq_some_iff.mpr hf,
        lastIdx_eq_none_iff.mpr hnoL, lastIdx_eq_some_iff.mpr hl]

theorem claim_C2_witness :
    extract_json "noise \x7b\"a\":1\x7d more noise" = "\x7b\"a\":1\x7d" := by
  have h := (claim_C2 "noise \x7b\"a\":1\x7d more noise").2.2 6 12
    (Or.inl ⟨by decide, by decide⟩) (Or.inl ⟨by decide, by decide⟩)
  rw [h]
  rfl

theorem claim_C2_counterexample :
    extract_json "[a] \x7bb\x7d" = "\x7bb\x7d" ∧
    extract_json_claimed "[a] \x7bb\x7d" = "[a]" ∧
    ("\x7bb\x7d" : String) ≠ "[a]" :=
  ⟨by decide, by decide, by decide⟩

/-- One well-formed response per sampled user, per survey, in order
(the C3 shape, with the domain of each answer given by `valueOk`). -/
def responsesAligned (S : SurveyList) (U : UserList) (rl : ResponseList) : Prop :=
  ∃ blocks : List (List Response), rl.responses = blocks.flatten ∧
    List.Forall₂ (fun s block => ∃ sel : List User, sel <+~ U.users ∧
      block.length = sel.length ∧
      ∀ i (h1 : i < sel.length) (h2 : i < block.length), responseOk s sel[i] block[i])
      S.surveys blocks

/-- C3 (amended): for every survey and every user sampled for it,
`generate_responses` produces one Response with exactly one Answer per
question of that survey in question order, `question_id` matching and
`finished = true`; every rating answer lies in `[1, R]` where `R` is
`question.range` when set and nonzero and `5` otherwise (Python `or`:
a range of 0 also falls back to 5); every nps answer lies in `[0, 10]`;
every `multipleChoiceSingle` answer is the id of one of the question's
choices, the literal `"choice-1"` when choices are absent or empty;
every `multipleChoiceMulti` answer is the id list of a selection of
1 to `min 3 (number of choices)` positionally-distinct choices, the
literal `["choice-1"]` when choices are absent or empty. -/
theorem claim_C3 (S : SurveyList) (U : UserList) (minP maxP : Int) (g : Rng)
    (rl : ResponseList) (g' : Rng)
    (h : generate_responses S U minP maxP g = some (rl, g')) :
    responsesAligned S U rl := by
  unfold generate_responses at h
  rcases Option.map_eq_some.mp h with ⟨⟨rs, g2⟩, haux, heq⟩
  have hfst := congrArg Prod.fst heq
  simp only [] at hfst
  rcases generate_responses_aux_spec haux with ⟨blocks, hflat, hall⟩
  refine ⟨blocks, ?_, ?_⟩
  · rw [← hfst, hflat]
  · refine hall.imp ?_
    rintro s block ⟨n, sel, -, -, hsub, -, hlen, hpt⟩
    exact ⟨sel, hsub, hlen, hpt⟩

def c3Survey : Survey :=
  { id := "s1", name := "Satisfaction",
    questions := [{ id := "q1", type := .rating, headline := "How satisfied?",
                    scale := some "number", range := some 5 }],
    status := "inProgress" }

def c3User : User := { name := "Alice", email := "alice@example.com", role := .member }

def c3Rng : Rng := { stream := fun _ => 2, pos := 0 }

def c3Out : ResponseList × Rng :=
  (generate_responses ⟨[c3Survey]⟩ ⟨[c3User]⟩ 1 1 c3Rng).getD (⟨[]⟩, c3Rng)

theorem claim_C3_witness : responsesAligned ⟨[c3Survey]⟩ ⟨[c3User]⟩ c3Out.1 :=
  claim_C3 ⟨[c3Survey]⟩ ⟨[c3User]⟩ 1 1 c3Rng c3Out.1 c3Out.2 (by rfl)

def c3cQuestion : Question :=
  { id := "q1", type := .rating, headline := "H?", range := some 0 }

def c3cSurvey : Survey :=
  { id := "s1", name := "S", questions := [c3cQuestion], status := "inProgress" }

def c3cRng : Rng := { stream := fun _ => 4, pos := 0 }

def c3cOut : ResponseList × Rng :=
  (generate_responses ⟨[c3cSurvey]⟩ ⟨[⟨"Alice", "alice@example.com", .member⟩]⟩ 1 1
    c3cRng).getD (⟨[]⟩, c3cRng)

/-- The rating upper bound as the claim states it: `question.range`,
with the default 5 applying only when `range` is unset. -/
def ratingBoundClaimed (q : Question) : Int := q.range.getD 5

theorem claim_C3_counterexample :
    (c3cOut.1.responses.map fun r => r.answers.map Answer.value) = [[.i 5]] ∧
    ratingBoundClaimed c3cQuestion = 0 ∧
    ¬ ((5 : Int) ≤ ratingBoundClaimed c3cQuestion) :=
  ⟨by decide, by decide, by decide⟩

/-- Per-survey sampling shape (the C4 shape): a drawn count in
`[minP, maxP]`, a sample from distinct pool positions of size equal to
the drawn count clamped to the pool size, never exceeding the pool, and
duplicate-free whenever the pool is. -/
def samplingOk (S : SurveyList) (U : UserList) (minP maxP : Int)
    (rl : ResponseList) : Prop :=
  ∃ blocks : List (List Response), rl.responses = blocks.flatten ∧
    List.Forall₂ (fun s block =>
      ∃ (n : Int) (sel : List User), minP ≤ n ∧ n ≤ maxP ∧ sel <+~ U.users ∧
        (sel.length : Int) = min n (U.users.length : Int) ∧
        sel.length ≤ U.users.length ∧
        (U.users.Nodup → sel.Nodup) ∧
        block.map Response.user_email = sel.map User.email)
      S.surveys blocks

/-- C4 (amended): for every call with `minP ≤ maxP`, each survey's
responding users are sampled without replacement from pairwise-distinct
pool positions — so no user appears twice within one survey's response
set whenever the pool itself contains no duplicate users — the number of
responding users equals the drawn count from `[minP, maxP]` clamped to
the pool size, and it never exceeds the number of users available. -/
theorem claim_C4 (S : SurveyList) (U : UserList) (minP maxP : Int) (g : Rng)
    (rl : ResponseList) (g' : Rng) (hmin : minP ≤ maxP)
    (h : generate_responses S U minP maxP g = some (rl, g')) :
    samplingOk S U minP maxP rl := by
  unfold generate_responses at h
  rcases Option.map_eq_some.mp h with ⟨⟨rs, g2⟩, haux, heq⟩
  have hfst := congrArg Prod.fst heq
  simp only [] at hfst
  rcases generate_responses_aux_spec haux with ⟨blocks, hflat, hall⟩
  refine ⟨blocks, by rw [← hfst, hflat], ?_⟩
  refine hall.imp ?_
  rintro s block ⟨n, sel, hn1, hn2, hsub, hclamp, hlen, hpt⟩
  refine ⟨n, sel, hn1, hn2, hsub, hclamp, hsub.length_le, fun hnd => subperm_nodup hsub hnd, ?_⟩
  apply List.ext_getElem
  · simp [hlen]
  · intro k hk1 hk2
    simp only [List.getElem_map]
    exact (hpt k (by simpa using hk2) (by simpa using hk1)).2.1

def c4Survey : Survey :=
  { id := "s1", name := "Pulse",
    questions := [{ id := "q1", type := .nps, headline := "Recommend us?" }],
    status := "inProgress" }

def c4User : User := { name := "Bob", email := "bob@example.com", role := .member }

def c4Rng : Rng := { stream := fun _ => 7, pos := 0 }

def c4Out : ResponseList × Rng :=
  (generate_responses ⟨[c4Survey]⟩ ⟨[c4User]⟩ 1 2 c4Rng).getD (⟨[]⟩, c4Rng)

theorem claim_C4_witness : samplingOk ⟨[c4Survey]⟩ ⟨[c4User]⟩ 1 2 c4Out.1 :=
  claim_C4 ⟨[c4Survey]⟩ ⟨[c4User]⟩ 1 2 c4Rng c4Out.1 c4Out.2 (by decide) (by rfl)

def c4cUser : User := { name := "Alice", email := "alice@example.com", role := .member }

def c4cSurvey : Survey := { id := "s1", name := "S", questions := [] }

def c4cRng : Rng := { stream := fun _ => 0, pos := 0 }

def c4cOut : ResponseList × Rng :=
  (generate_responses ⟨[c4cSurvey]⟩ ⟨[c4cUser, c4cUser]⟩ 2 2 c4cRng).getD (⟨[]⟩, c4cRng)

theorem claim_C4_counterexample :
    (2 : Int) ≤ 2 ∧
    c4cOut.1.responses.map Response.user_email =
      ["alice@example.com", "alice@example.com"] ∧
    ¬ (c4cOut.1.responses.map Response.user_email).Nodup :=
  ⟨by decide, by decide, by decide⟩

/-- C5: if the creation POST for one survey fails with an HTTP error,
`seed_surveys` does not raise (the run function is total and returns a
full trace), records that survey's local id as its own remote id, and
still attempts every survey in the batch — one prepared payload is
POSTed per survey regardless of other outcomes. -/
theorem claim_C5 (server : MgmtServer) (ss : List Survey) (k : Nat)
    (hk : k < ss.length) (e : Nat) (herr : server k = .error e) :
    (seed_surveys_run server 0 ss).1.length = ss.length ∧
    (seed_surveys_run server 0 ss).2.length = ss.length ∧
    (∀ i (h : i < ss.length),
      (seed_surveys_run server 0 ss).1[i]? = some (prepare_survey_payload ss[i])) ∧
    (seed_surveys_run server 0 ss).2[k]? =
      some ((ss[k]).id, some (.str (ss[k]).id)) := by
  refine ⟨(seed_surveys_run_spec server 0 ss).1, (seed_surveys_run_spec server 0 ss).2.1,
    fun i h => ((seed_surveys_run_spec server 0 ss).2.2 i h).1, ?_⟩
  have hrec := ((seed_surveys_run_spec server 0 ss).2.2 k hk).2
  rw [Nat.zero_add] at hrec
  rw [hrec, herr]
  rfl

def c5Server : MgmtServer :=
  fun i => if i = 0 then .error 500 else .ok [("id", .str "srv-2")]

def c5SurveyA : Survey := { id := "a", name := "A", questions := [] }

def c5SurveyB : Survey := { id := "b", name := "B", questions := [] }

theorem claim_C5_witness :
    (seed_surveys_run c5Server 0 [c5SurveyA, c5SurveyB]).1.length = 2 ∧
    (seed_surveys_run c5Server 0 [c5SurveyA, c5SurveyB]).2[0]? =
      some ("a", some (.str "a")) :=
  ⟨(claim_C5 c5Server [c5SurveyA, c5SurveyB] 0 (by decide) 500 (by rfl)).1,
   (claim_C5 c5Server [c5SurveyA, c5SurveyB] 0 (by decide) 500 (by rfl)).2.2.2⟩

/-- C6 (amended): `generate_users` returns exactly the user list parsed
and validated from the backend's extracted payload — one `User` per
entry of the payload's `users` array, every returned email passing the
syntactic validation — so the length equals `N`, and the emails are
pairwise distinct, only when the backend's payload provides that;
neither is enforced by the generator. -/
theorem claim_C6 (n : Nat) (llmOutput : String) (ul : UserList)
    (h : generate_users n llmOutput = some ul) :
    (∀ u ∈ ul.users, validEmail u.email = true) ∧
    ∃ j items, Json.loads (extract_json llmOutput) = some j ∧
      j.getField "users" = some (.arr items) ∧ ul.users.length = items.length := by
  unfold generate_users at h
  rcases Option.bind_eq_some.mp h with ⟨j, hj, hdec⟩
  unfold UserList.decode at hdec
  cases hget : j.getField "users" with
  | none => rw [hget] at hdec; cases hdec
  | some v =>
    rw [hget] at hdec
    cases v with
    | arr items =>
      rcases Option.map_eq_some.mp hdec with ⟨users, husers, hul⟩
      constructor
      · intro u hu
        rcases decodeList_mem husers u (by rw [← hul] at hu; exact hu) with ⟨ju, hju, hdu⟩
        exact User.decode_validEmail hdu
      · refine ⟨j, items, hj, hget, ?_⟩
        rw [← hul]
        exact decodeList_length husers
    | null => cases hdec
    | bool b => cases hdec
    | num m => cases hdec
    | str sv => cases hdec
    | obj f => cases hdec

def c6Out : String :=
  "\x7b\"users\": [\x7b\"name\": \"Alice Smith\", \"email\": \"alice.smith@company.com\", \"role\": \"manager\"\x7d]\x7d"

def c6UL : UserList := (generate_users 1 c6Out).getD ⟨[]⟩

theorem claim_C6_witness :
    (∀ u ∈ c6UL.users, validEmail u.email = true) ∧
    ∃ j items, Json.loads (extract_json c6Out) = some j ∧
      j.getField "users" = some (.arr items) ∧ c6UL.users.length = items.length :=
  claim_C6 1 c6Out c6UL (by rfl)

theorem claim_C6_counterexample :
    (generate_users 1 "\x7b\"users\": []\x7d").map (fun ul => ul.users.length) =
      some 0 ∧ (0 : Nat) ≠ 1 :=
  ⟨by decide, by decide⟩

/-- C7 (amended): every survey returned by `generate_surveys` is the
schema-validated decode of one entry of the backend payload's `surveys`
array; question-id uniqueness within a survey and non-empty choices on
multiple-choice questions hold whenever the parsed payload satisfies
them (`jsonSurveyInv`), but are not enforced by the generator and can be
violated by backend output. -/
theorem claim_C7 (n : Nat) (llmOutput : String) (sl : SurveyList)
    (h : generate_surveys n llmOutput = some sl) :
    ∃ j items, Json.loads (extract_json llmOutput) = some j ∧
      j.getField "surveys" = some (.arr items) ∧ sl.surveys.length = items.length ∧
      ∀ s ∈ sl.surveys, ∃ sj ∈ items, Survey.decode sj = some s ∧
        (jsonSurveyInv sj → surveyInvariant s) := by
  unfold generate_surveys at h
  rcases Option.bind_eq_some.mp h with ⟨j, hj, hdec⟩
  unfold SurveyList.decode at hdec
  cases hget : j.getField "surveys" with
  | none => rw [hget] at hdec; cases hdec
  | some v =>
    rw [hget] at hdec
    cases v with
    | arr items =>
      rcases Option.map_eq_some.mp hdec with ⟨surveys, hsurveys, hsl⟩
      refine ⟨j, items, hj, hget, ?_, ?_⟩
      · rw [← hsl]
        exact decodeList_length hsurveys
      · intro s hs
        rcases decodeList_mem hsurveys s (by rw [← hsl] at hs; exact hs) with
          ⟨sj, hsj, hds⟩
        exact ⟨sj, hsj, hds, Survey.decode_invariant hds⟩
    | null => cases hdec
    | bool b => cases hdec
    | num m => cases hdec
    | str sv => cases hdec
    | obj f => cases hdec

def c7Out : String :=
  "\x7b\"surveys\": [\x7b\"id\": \"s1\", \"name\": \"Feedback\", \"questions\": [\x7b\"id\": \"q1\", \"type\": \"multipleChoiceSingle\", \"headline\": \"Pick one\", \"choices\": [\x7b\"id\": \"c1\", \"label\": \"One\"\x7d]\x7d]\x7d]\x7d"

def c7SL : SurveyList := (generate_surveys 1 c7Out).getD ⟨[]⟩

theorem claim_C7_witness :
    ∃ j items, Json.loads (extract_json c7Out) = some j ∧
      j.getField "surveys" = some (.arr items) ∧ c7SL.surveys.length = items.length ∧
      ∀ s ∈ c7SL.surveys, ∃ sj ∈ items, Survey.decode sj = some s ∧
        (jsonSurveyInv sj → surveyInvariant s) :=
  claim_C7 1 c7Out c7SL (by rfl)

def c7cOut : String :=
  "\x7b\"surveys\": [\x7b\"id\": \"s1\", \"name\": \"S\", \"questions\": [\x7b\"id\": \"q1\", \"type\": \"openText\", \"headline\": \"A\"\x7d, \x7b\"id\": \"q1\", \"type\": \"multipleChoiceSingle\", \"headline\": \"B\"\x7d]\x7d]\x7d"

theorem claim_C7_counterexample :
    (generate_surveys 1 c7cOut).map
        (fun sl => sl.surveys.map fun s => s.questions.map Question.id) =
      some [["q1", "q1"]] ∧
    ¬ (["q1", "q1"] : List String).Nodup ∧
    (generate_surveys 1 c7cOut).map
        (fun sl => sl.surveys.map fun s => s.questions.map fun q => (q.type, pyChoices q)) =
      some [[(.openText, []), (.multipleChoiceSingle, [])]] :=
  ⟨by rfl, by decide, by rfl⟩

/-- C8: `seed_users` is total over the whole batch (never raises past
its own boundary in the modelled transport): one POST per user, and the
value recorded for user `i` is the server-returned id on success
(falling back to the email when the body has no id), and the email
itself on any HTTP error, after which the next user is still
processed. -/
theorem claim_C8 (server : MgmtServer) (users : UserList) (i : Nat)
    (h : i < users.users.length) :
    (seed_users_run server 0 users.users).1.length = users.users.length ∧
    (seed_users_run server 0 users.users).2.length = users.users.length ∧
    (seed_users_run server 0 users.users).2[i]? =
      some ((users.users[i]).email, userRecordValue users.users[i] (server i)) := by
  refine ⟨(seed_users_run_spec server 0 users.users).1,
    (seed_users_run_spec server 0 users.users).2.1, ?_⟩
  have hrec := (seed_users_run_spec server 0 users.users).2.2 i h
  rwa [Nat.zero_add] at hrec

def c8Server : MgmtServer :=
  fun i => if i = 0 then .error 409 else if i = 1 then .ok [("id", .str "u-1")] else .ok []

def c8Users : UserList :=
  ⟨[{ name := "A", email := "a@x.co", role := .member },
    { name := "B", email := "b@x.co", role := .member },
    { name := "C", email := "c@x.co", role := .manager }]⟩

theorem claim_C8_witness :
    (seed_users_run c8Server 0 c8Users.users).2[0]? = some ("a@x.co", .str "a@x.co") ∧
    (seed_users_run c8Server 0 c8Users.users).2[1]? = some ("b@x.co", .str "u-1") ∧
    (seed_users_run c8Server 0 c8Users.users).2[2]? = some ("c@x.co", .str "c@x.co") :=
  ⟨(claim_C8 c8Server c8Users 0 (by decide)).2.2,
   (claim_C8 c8Server c8Users 1 (by decide)).2.2,
   (claim_C8 c8Server c8Users 2 (by decide)).2.2⟩

/-- C9 (amended): when the API key is missing `seed_all` raises the
configuration error naming FORMBRICKS_API_KEY before any network
activity (the event trace is empty); when the API key is present and
the environment id is missing it raises the error naming
FORMBRICKS_ENVIRONMENT_ID, again before any network activity. The
checks run in that order, so when both are missing only
FORMBRICKS_API_KEY is named. -/
theorem claim_C9 :
    ("FORMBRICKS_API_KEY".data <:+: apiKeyMsg.data) ∧
    ("FORMBRICKS_ENVIRONMENT_ID".data <:+: envIdMsg.data) ∧
    (∀ (apiKey envId : Option String) (baseUrl : String) (env : SeedEnv),
      (pyTruthyStr apiKey = false →
        seed_all apiKey envId baseUrl env = ([], some apiKeyMsg)) ∧
      (pyTruthyStr apiKey = true → pyTruthyStr envId = false →
        seed_all apiKey envId baseUrl env = ([], some envIdMsg))) := by
  refine ⟨by decide, by decide, ?_⟩
  intro apiKey envId baseUrl env
  constructor
  · intro h1
    simp [seed_all, h1]
  · intro h1 h2
    simp [seed_all, h1, h2]

def c9Env : SeedEnv :=
  { connOk := true, usersFile := none, surveysFile := none, responsesFile := none,
    memberServer := fun _ => .error 404, surveyServer := fun _ => .error 404 }

theorem claim_C9_witness :
    seed_all none (some "env-1") "https://localhost:3000" c9Env =
      ([], some apiKeyMsg) ∧
    seed_all (some "key") none "https://localhost:3000" c9Env =
      ([], some envIdMsg) :=
  ⟨((claim_C9.2.2 none (some "env-1") "https://localhost:3000" c9Env).1 (by rfl)),
   ((claim_C9.2.2 (some "key") none "https://localhost:3000" c9Env).2 (by rfl) (by rfl))⟩

theorem claim_C9_counterexample :
    pyTruthyStr (none : Option String) = false ∧
    seed_all none none "https://localhost:3000" c9Env = ([], some apiKeyMsg) ∧
    ¬ ("FORMBRICKS_ENVIRONMENT_ID".data <:+: apiKeyMsg.data) :=
  ⟨rfl, by rfl, by decide⟩

/-- C10: when the survey-creation POST succeeds but the body has no
`"id"` key, the mapping table records a null remote id for that survey
(not a fallback to the local id), and `seed_responses` subsequently
targets `None` — the payload's surveyId is null and the URL's survey
segment is the literal "None" — for any response whose mapping entry is
that recorded null. -/
theorem claim_C10 :
    (∀ (server : MgmtServer) (ss : List Survey) (k : Nat) (hk : k < ss.length)
       (body : List (String × Json)), server k = .ok body →
        dictGet? body "id" = none →
        (seed_surveys_run server 0 ss).2[k]? = some ((ss[k]).id, none)) ∧
    (∀ (baseUrl envId : String) (created : List (String × Option Json))
       (r : Response) (rest : List Response),
      dictGet? created r.survey_id = some none →
      seed_responses_run baseUrl envId created (r :: rest) =
        { url := baseUrl ++ "/client" ++ "/" ++
            lstripSlash (envId ++ "/displays/" ++ "None" ++ "/responses"),
          payload := prepare_response_payload r none } ::
          seed_responses_run baseUrl envId created rest) := by
  constructor
  · intro server ss k hk body hok hid
    have hrec := ((seed_surveys_run_spec server 0 ss).2.2 k hk).2
    rw [Nat.zero_add] at hrec
    rw [hrec, hok]
    simp [surveyRecordValue, hid]
  · intro baseUrl envId created r rest hmap
    simp only [seed_responses_run, hmap, Option.getD_some, pyStrOpt]

def c10Server : MgmtServer := fun _ => .ok []

def c10Survey : Survey := { id := "local-1", name := "S", questions := [] }

def c10Resp : Response :=
  { survey_id := "local-1", user_email := "a@b.co", answers := [], finished := true }

theorem claim_C10_witness :
    (seed_surveys_run c10Server 0 [c10Survey]).2[0]? = some ("local-1", none) ∧
    seed_responses_run "https://h" "env-1"
        (dictOfRecords (seed_surveys_run c10Server 0 [c10Survey]).2) [c10Resp] =
      [{ url := "https://h/client/env-1/displays/None/responses",
         payload := prepare_response_payload c10Resp none }] := by
  constructor
  · exact claim_C10.1 c10Server [c10Survey] 0 (by decide) [] (by rfl) (by rfl)
  · rw [claim_C10.2 "https://h" "env-1"
      (dictOfRecords (seed_surveys_run c10Server 0 [c10Survey]).2) c10Resp [] (by rfl)]
    rfl

end Claims

end Formbricks
